import Mathlib

/-!
Shallow embedding of the copilot-bridge request pipeline.

Each definition below is translated from one function of the repository:
the HTTP validation primitives (`src/adapters/input/http-server/validation.ts`),
the domain entities (`src/domain/entities/ChatMessage.ts`, `ModelInfo.ts`),
the use cases (`src/application/use-cases/ProcessChatRequest.ts`, `ListModels.ts`),
the route handlers (`src/adapters/input/http-server/routes.ts`),
the dispatcher (`src/adapters/input/http-server/server.ts`), and the
VS Code language-model adapter (`VSCodeLanguageModelAdapter`).

Modelling conventions:
- Optional / possibly-absent JavaScript values become `Option`.
- A thrown exception becomes `Except` with an error type mirroring the
  repository's exception classes (`DomainErr` below).
- Byte buffers are modelled as UTF-8 text; a Buffer chunk's byte length is
  its UTF-8 byte size.
- Handlers additionally return a list of events recording which observable
  actions (body read, token check, use-case invocation, provider calls)
  were performed, in order; the event list is instrumentation and does not
  influence the computed response.
-/

/-- A single-quote character as a string, used to reproduce the exact error
message texts of the source without apostrophes in this file's literals. -/
def squote : String := String.singleton (Char.ofNat 39)

/-- Whether `pat` is an initial segment of `s` (on character lists). -/
def startsWithList : List Char → List Char → Bool
  | [], _ => true
  | _ :: _, [] => false
  | p :: ps, c :: cs => p = c && startsWithList ps cs

/-- Occurrence of `pat` anywhere in `s` (on character lists). -/
def containsAux (pat : List Char) : List Char → Bool
  | [] => startsWithList pat []
  | c :: rest => startsWithList pat (c :: rest) || containsAux pat rest

/-- JS `s.includes(pat)`: true when `pat` occurs as a substring of `s`. -/
def jsIncludes (s pat : String) : Bool :=
  containsAux pat.data s.data

/-- JS `s.trim()`: drop whitespace from both ends. -/
def jsTrim (s : String) : String :=
  String.mk
    (((s.data.dropWhile Char.isWhitespace).reverse.dropWhile
      Char.isWhitespace).reverse)

instance {ε α : Type} [DecidableEq ε] [DecidableEq α] :
    DecidableEq (Except ε α) := fun x y =>
  match x, y with
  | .ok a, .ok b =>
    if h : a = b then isTrue (by rw [h])
    else isFalse (fun hc => by cases hc; exact h rfl)
  | .error e, .error f =>
    if h : e = f then isTrue (by rw [h])
    else isFalse (fun hc => by cases hc; exact h rfl)
  | .ok _, .error _ => isFalse (fun hc => by cases hc)
  | .error _, .ok _ => isFalse (fun hc => by cases hc)

/-- The leftmost match of the regex `:\d+$` is the maximal trailing digit
run together with the colon right before it; `replace(/:\d+$/, '')` drops
that suffix when it exists.  Translated from
`remoteAddress.replace(/:\d+$/, '')` in `validation.ts`. -/
def stripPortSuffix (s : String) : String :=
  let rev := s.data.reverse
  let ds := rev.takeWhile (fun c => c.isDigit)
  let rest := rev.drop ds.length
  match ds, rest with
  | _ :: _, ':' :: tail => String.mk tail.reverse
  | _, _ => s

/-- `isLocalhost` from `src/adapters/input/http-server/validation.ts`:
falsy (absent or empty) input is rejected, then the trailing `:<digits>`
suffix is stripped by the regex and the result compared with the four
loopback literals. -/
def isLocalhost (remoteAddress : Option String) : Bool :=
  match remoteAddress with
  | none => false
  | some s =>
    if s = "" then false
    else
      let addr := stripPortSuffix s
      addr = "127.0.0.1" || addr = "localhost" || addr = "::1" ||
        addr = "::ffff:127.0.0.1"

/-- The four canonical loopback forms named by the specification. -/
def loopbackForms : List String :=
  ["127.0.0.1", "localhost", "::1", "::ffff:127.0.0.1"]

/-- After consuming `base`, the remainder must be `:` followed by a
non-empty run of digits. -/
def portSuffixAfter : List Char → List Char → Bool
  | [], ':' :: ds => ds ≠ [] && ds.all (fun c => c.isDigit)
  | b :: bs, c :: cs => b = c && portSuffixAfter bs cs
  | _, _ => false

/-- Spec-side contract for `isLocalhost`, written from the specification's
words: true iff the address is one of the canonical loopback forms, or one
of those forms followed by `:` and a non-empty run of digits (a port
suffix); false for absent input and every other address. -/
def specIsLocalhost (remoteAddress : Option String) : Bool :=
  match remoteAddress with
  | none => false
  | some s =>
    loopbackForms.any (fun base =>
      s = base || portSuffixAfter base.data s.data)

/-- `validateBearerToken` from `validation.ts`: with an empty configured
token the check is skipped; otherwise the `authorization` header must be
present (non-falsy) and equal the literal string `Bearer ` followed by the
configured token. -/
def validateBearerToken (authorization : Option String) (token : String) : Bool :=
  if token = "" then true
  else
    match authorization with
    | none => false
    | some h =>
      if h = "" then false
      else h = "Bearer " ++ token

/-- The exact error message thrown by `readBodyWithLimit` when the running
byte total exceeds the limit. -/
def limitMsg (maxBytes : Nat) : String :=
  "Request body exceeds maximum size of " ++ toString maxBytes ++ " bytes"

/-- Loop of `readBodyWithLimit`: for each chunk, add its byte length to the
running total; if the total exceeds the limit, throw (before buffering the
offending chunk); otherwise append the chunk to the accumulator.  The error
carries, besides the message, the text buffered at the moment of failure
(the `chunks` array of the source), so that theorems can speak about what
was buffered. -/
def readBodyAux (maxBytes : Nat) : List String → Nat → String →
    Except (String × String) String
  | [], _, acc => .ok acc
  | c :: cs, totalBytes, acc =>
    let t := totalBytes + c.utf8ByteSize
    if t > maxBytes then .error (limitMsg maxBytes, acc)
    else readBodyAux maxBytes cs t (acc ++ c)

/-- `readBodyWithLimit` from `validation.ts`: concatenates the chunks of
the request stream, failing as soon as the running byte total exceeds
`maxBytes`; on clean completion returns the accumulated UTF-8 text. -/
def readBodyWithLimit (chunks : List String) (maxBytes : Nat) :
    Except String String :=
  match readBodyAux maxBytes chunks 0 "" with
  | .ok s => .ok s
  | .error (msg, _) => .error msg

/-- Total byte size of a list of chunks. -/
def totalSize (chunks : List String) : Nat :=
  (chunks.map String.utf8ByteSize).sum

/-- Concatenation of all chunks (`Buffer.concat(chunks).toString('utf8')`). -/
def joinChunks (chunks : List String) : String :=
  chunks.foldl (fun a c => a ++ c) ""

theorem readBodyAux_ok (maxBytes : Nat) :
    ∀ (chunks : List String) (total : Nat) (acc : String),
      total + totalSize chunks ≤ maxBytes →
      readBodyAux maxBytes chunks total acc =
        .ok (chunks.foldl (fun a c => a ++ c) acc) := by
  intro chunks
  induction chunks with
  | nil => intro total acc _; rfl
  | cons c cs ih =>
    intro total acc h
    have hsz : totalSize (c :: cs) = c.utf8ByteSize + totalSize cs := by
      simp [totalSize]
    have hle : total + c.utf8ByteSize ≤ maxBytes := by omega
    have hrest : (total + c.utf8ByteSize) + totalSize cs ≤ maxBytes := by
      omega
    simp only [readBodyAux]
    rw [if_neg (by omega)]
    exact ih (total + c.utf8ByteSize) (acc ++ c) hrest

theorem readBodyAux_over (maxBytes : Nat) :
    ∀ (pfx : List String) (c : String) (rest : List String)
      (total : Nat) (acc : String),
      total + totalSize pfx ≤ maxBytes →
      total + totalSize pfx + c.utf8ByteSize > maxBytes →
      readBodyAux maxBytes (pfx ++ c :: rest) total acc =
        .error (limitMsg maxBytes, pfx.foldl (fun a x => a ++ x) acc) := by
  intro pfx
  induction pfx with
  | nil =>
    intro c rest total acc _ hover
    simp only [List.nil_append, readBodyAux, totalSize, List.map_nil,
      List.sum_nil, List.foldl_nil] at *
    rw [if_pos (by omega)]
  | cons p ps ih =>
    intro c rest total acc hle hover
    have hsz : totalSize (p :: ps) = p.utf8ByteSize + totalSize ps := by
      simp [totalSize]
    simp only [List.cons_append, readBodyAux]
    rw [if_neg (by omega)]
    simp only [List.foldl_cons]
    exact ih c rest (total + p.utf8ByteSize) (acc ++ p)
      (by omega) (by omega)

/-- Error values mirroring the repository's exception classes
(`src/domain/exceptions.ts`): `ValidationError`, `InvalidMessageError`,
`ModelUnavailableError`, and plain `Error` (which also covers runtime
`TypeError`s), each carrying its message. -/
inductive DomainErr where
  | validation (msg : String)
  | invalidMessage (msg : String)
  | modelUnavailable (msg : String)
  | generic (msg : String)
deriving DecidableEq, Repr

/-- The `message` property of a thrown error. -/
def DomainErr.message : DomainErr → String
  | .validation m => m
  | .invalidMessage m => m
  | .modelUnavailable m => m
  | .generic m => m

/-- Runtime type of a JS `content` value as far as `ChatMessage` observes
it: either a string, or some non-string value. -/
inductive ContentVal where
  | str (s : String)
  | nonString
deriving DecidableEq, Repr

/-- A validated chat message (the fields of a constructed `ChatMessage`). -/
structure ChatMsg where
  role : String
  content : String
deriving DecidableEq, Repr

/-- The valid roles list of `ChatMessage.validateRole`. -/
def validRoles : List String := ["system", "user", "assistant"]

/-- Error message of `validateRole` (apostrophes via `squote`). -/
def invalidRoleMsg (role : String) : String :=
  "Invalid message role: " ++ role ++ ". Must be " ++
    squote ++ "system" ++ squote ++ ", " ++
    squote ++ "user" ++ squote ++ ", or " ++
    squote ++ "assistant" ++ squote

/-- The `ChatMessage` constructor from
`src/domain/entities/ChatMessage.ts`: `validateRole` runs first (role must
be one of `validRoles`, else `InvalidMessageError`), then
`validateContent` (must be a string, else `InvalidMessageError` "must be a
string"; must not trim to empty, else "cannot be empty"); on success both
fields are stored unchanged. -/
def mkChatMessage (role : String) (content : ContentVal) :
    Except DomainErr ChatMsg :=
  if validRoles.contains role then
    match content with
    | .nonString => .error (.invalidMessage "Message content must be a string")
    | .str s =>
      if jsTrim s = "" then
        .error (.invalidMessage "Message content cannot be empty")
      else .ok ⟨role, s⟩
  else .error (.invalidMessage (invalidRoleMsg role))

/-- A message DTO as received from the parsed JSON body: an arbitrary role
string and an arbitrary content value. -/
structure MessageDTO where
  role : String
  content : ContentVal
deriving DecidableEq, Repr

/-- The runtime shape of the `messages` field of a parsed request payload:
absent (`undefined`/`null`), present but not an array, or an array of
message DTOs. -/
inductive MessagesVal where
  | absent
  | nonArray
  | arr (xs : List MessageDTO)
deriving DecidableEq, Repr

/-- `ChatRequestDTO`: the `messages` field and the optional
`model.family` hint. -/
structure ChatRequestDTO where
  messages : MessagesVal
  modelFamily : Option String
deriving DecidableEq, Repr

/-- A JS value stored in a model-DTO property. -/
inductive JVal where
  | str (s : String)
  | num (n : Int)
  | undef
deriving DecidableEq, Repr

/-- `ModelInfo` from `src/domain/entities/ModelInfo.ts`; the open-ended
`additionalProperties` record is modelled as an association list in
insertion order. -/
structure ModelInfo where
  id : String
  vendor : String
  family : String
  name : String
  maxInputTokens : Int
  version : Option String
  additionalProperties : List (String × JVal)
deriving DecidableEq, Repr

/-- Reading property `k` of a JS object literal built from an ordered list
of key/value entries: the last entry with that key wins. -/
def jsGet (obj : List (String × JVal)) (k : String) : Option JVal :=
  ((obj.filter (fun p => p.1 = k)).getLast?).map (fun p => p.2)

/-- The fixed fields of the model DTO literal in `ListModels.execute`, in
source order (`version` is written even when absent, as `undefined`). -/
def fixedEntries (m : ModelInfo) : List (String × JVal) :=
  [("id", .str m.id), ("vendor", .str m.vendor), ("family", .str m.family),
   ("name", .str m.name), ("maxInputTokens", .num m.maxInputTokens),
   ("version", match m.version with | some v => .str v | none => .undef)]

/-- The object literal `{id: ..., vendor: ..., family: ..., name: ...,
maxInputTokens: ..., version: ..., ...model.additionalProperties}` of
`ListModels.execute`: the spread of `additionalProperties` comes after the
fixed fields, so its entries are later in the literal. -/
def buildModelDTO (m : ModelInfo) : List (String × JVal) :=
  fixedEntries m ++ m.additionalProperties

/-- `ModelsResponseDTO`: the mapped model DTOs and their count. -/
structure ModelsResponseDTO where
  models : List (List (String × JVal))
  count : Nat
deriving DecidableEq, Repr

/-- `ListModels.execute` from
`src/application/use-cases/ListModels.ts`, applied to the list of models
the port returned: maps each model to its DTO literal and returns it with
the count. -/
def ListModels.execute (models : List ModelInfo) : ModelsResponseDTO :=
  let modelDTOs := models.map buildModelDTO
  ⟨modelDTOs, modelDTOs.length⟩

/-- The model reference of the response envelope. -/
structure ModelRef where
  vendor : String
  family : String
deriving DecidableEq, Repr

/-- Timing metadata of the response envelope. -/
structure MetaDTO where
  startedAt : String
  endedAt : String
deriving DecidableEq, Repr

/-- `ChatResponseDTO`: the envelope returned by `ProcessChatRequest`. -/
structure ChatResponseDTO where
  id : String
  model : ModelRef
  output_text : String
  meta : MetaDTO
deriving DecidableEq, Repr

/-- The language-model port as observed by one request: the send operation
(which may throw) and the current-model query. -/
structure PortModel where
  sendRequest : List ChatMsg → Option String → Except DomainErr String
  getCurrentModel : Option ModelInfo
  listAvailableModels : Except DomainErr (List ModelInfo)

/-- Message of the `TypeError` raised by reading `.length` of an absent
`messages` value in the logging line of `ProcessChatRequest.execute`. -/
def typeErrorLengthMsg : String :=
  "Cannot read properties of undefined (reading " ++ squote ++ "length" ++
    squote ++ ")"

/-- `ProcessChatRequest.validateRequest`: absent or non-array `messages`
fails with `ValidationError` "messages array is required"; an empty array
fails with "messages array must not be empty". -/
def validateRequest (messages : MessagesVal) : Except DomainErr Unit :=
  match messages with
  | .absent => .error (.validation "messages array is required")
  | .nonArray => .error (.validation "messages array is required")
  | .arr xs =>
    if xs.length = 0 then
      .error (.validation "messages array must not be empty")
    else .ok ()

/-- `ProcessChatRequest.execute` from
`src/application/use-cases/ProcessChatRequest.ts`.  The request id and the
two timestamps, produced by `RequestId.generate()` and `new Date()`, are
inputs of the embedding.  Before any validation the source logs
`request.messages.length`, which raises a `TypeError` when `messages` is
absent; then `validateRequest` runs, each DTO is converted through the
`ChatMessage` constructor (first failure propagates), the port's send
operation is awaited, the current model is queried (`null` becomes the
generic error "No model information available"), and the envelope is
assembled. -/
def ProcessChatRequest.execute (port : PortModel)
    (requestId startedAt endedAt : String) (request : ChatRequestDTO) :
    Except DomainErr ChatResponseDTO :=
  match request.messages with
  | .absent => .error (.generic typeErrorLengthMsg)
  | _ =>
    match validateRequest request.messages with
    | .error e => .error e
    | .ok _ =>
      let xs := match request.messages with
        | .arr xs => xs
        | _ => []
      match xs.mapM (fun msg => mkChatMessage msg.role msg.content) with
      | .error e => .error e
      | .ok messages =>
        match port.sendRequest messages request.modelFamily with
        | .error e => .error e
        | .ok outputText =>
          match port.getCurrentModel with
          | none => .error (.generic "No model information available")
          | some currentModel =>
            .ok ⟨requestId, ⟨currentModel.vendor, currentModel.family⟩,
              outputText, ⟨startedAt, endedAt⟩⟩

/-- The JSON body written by a handler: the error envelope, the native
chat envelope, the reshaped OpenAI-style object, the models list, or the
empty body of a 204. -/
inductive HttpBody where
  | errJson (error : String) (details : Option String)
  | chatJson (resp : ChatResponseDTO)
  | openaiJson (id : String) (object : String) (created : Int)
      (model : String) (choiceRole : String) (choiceContent : String)
      (finishReason : String) (promptTokens completionTokens totalTokens : Nat)
  | modelsJson (resp : ModelsResponseDTO)
  | empty
deriving DecidableEq, Repr

/-- An HTTP response: status code and JSON body. -/
structure HttpResponse where
  status : Nat
  body : HttpBody
deriving DecidableEq, Repr

/-- Observable actions of the dispatch pipeline, recorded in order. -/
inductive Ev where
  | corsSet
  | tokenChecked
  | routedChat
  | routedModels
  | bodyRead
  | useCaseInvoked
deriving DecidableEq, Repr

/-- The catch block of `handleChatRequest` in `routes.ts`: a
`ValidationError` maps to 400 with its message as details; any other error
whose message contains "exceeds maximum size" maps to 400 with the message
as details; every other error maps to 500 with the message as details. -/
def chatCatch (e : DomainErr) : HttpResponse :=
  match e with
  | .validation m => ⟨400, .errJson "Bad Request" (some m)⟩
  | _ =>
    if jsIncludes e.message "exceeds maximum size" then
      ⟨400, .errJson "Bad Request" (some e.message)⟩
    else
      ⟨500, .errJson "Internal Server Error" (some e.message)⟩

/-- The reshaped OpenAI-style success body of `handleChatRequest` for the
`/v1/chat/completions` route: id from the envelope, object
"chat.completion", created is `Math.floor(new Date(startedAt).getTime() /
1000)` (the millisecond clock `epochMillis` models `new
Date(s).getTime()`; flooring division is `Int.fdiv`), model is the family,
one choice with index 0 / role "assistant" / the output text / finish
reason "stop", and all-zero usage. -/
def toOpenAI (epochMillis : String → Int) (resp : ChatResponseDTO) :
    HttpBody :=
  .openaiJson resp.id "chat.completion"
    ((epochMillis resp.meta.startedAt).fdiv 1000)
    resp.model.family "assistant" resp.output_text "stop" 0 0 0

/-- `handleChatRequest` from `routes.ts`: read the body under the size
limit (a thrown limit error reaches the catch block as a plain `Error`),
parse it as JSON (`parse` models `JSON.parse`, `none` meaning a throw →
400 "Invalid JSON payload"), run the use case, and on success answer 200
with the OpenAI reshape when the URL is `/v1/chat/completions`, else with
the native envelope; use-case failures go through the catch block. -/
def handleChatRequest (epochMillis : String → Int)
    (parse : String → Option ChatRequestDTO) (port : PortModel)
    (requestId startedAt endedAt : String) (url : String)
    (chunks : List String) (maxBodyBytes : Nat) :
    HttpResponse × List Ev :=
  match readBodyWithLimit chunks maxBodyBytes with
  | .error msg => (chatCatch (.generic msg), [.bodyRead])
  | .ok body =>
    match parse body with
    | none => (⟨400, .errJson "Bad Request" (some "Invalid JSON payload")⟩,
        [.bodyRead])
    | some chatRequest =>
      match ProcessChatRequest.execute port requestId startedAt endedAt
          chatRequest with
      | .error e => (chatCatch e, [.bodyRead, .useCaseInvoked])
      | .ok resp =>
        if url = "/v1/chat/completions" then
          (⟨200, toOpenAI epochMillis resp⟩, [.bodyRead, .useCaseInvoked])
        else
          (⟨200, .chatJson resp⟩, [.bodyRead, .useCaseInvoked])

/-- `handleModelsRequest` from `routes.ts`: run `ListModels`; on success
200 with the models body, on failure 500 with the error message. -/
def handleModelsRequest (port : PortModel) : HttpResponse × List Ev :=
  match port.listAvailableModels with
  | .error e =>
    (⟨500, .errJson "Internal Server Error" (some e.message)⟩,
      [.useCaseInvoked])
  | .ok models =>
    (⟨200, .modelsJson (ListModels.execute models)⟩, [.useCaseInvoked])

/-- `BridgeConfig` (`ConfigurationPort`). -/
structure BridgeConfig where
  port : Nat
  bindAddress : String
  token : String
  defaultFamily : String
  maxBodyBytes : Nat
deriving DecidableEq, Repr

/-- An inbound HTTP request as the dispatcher observes it. -/
structure ReqModel where
  method : String
  url : String
  remoteAddress : Option String
  authorization : Option String
  chunks : List String
deriving Repr

/-- `HttpServerAdapter.handleRequest` from `server.ts`, the per-request
state machine: set CORS headers; answer 204 to OPTIONS; answer 403 and
stop when the peer address fails `isLocalhost` (before the token check and
before any body is read); answer 401 and stop when the bearer check fails;
then route `POST /v1/chat` and `POST /v1/chat/completions` to the chat
handler, `GET /v1/models` to the models handler, and anything else to 404. -/
def handleRequest (epochMillis : String → Int)
    (parse : String → Option ChatRequestDTO) (port : PortModel)
    (requestId startedAt endedAt : String) (config : BridgeConfig)
    (req : ReqModel) : HttpResponse × List Ev :=
  if req.method = "OPTIONS" then
    (⟨204, .empty⟩, [.corsSet])
  else if isLocalhost req.remoteAddress = false then
    (⟨403, .errJson "Forbidden" (some "Only localhost requests are allowed")⟩,
      [.corsSet])
  else if validateBearerToken req.authorization config.token = false then
    (⟨401, .errJson "Unauthorized" (some "Invalid or missing bearer token")⟩,
      [.corsSet, .tokenChecked])
  else if (req.url = "/v1/chat" || req.url = "/v1/chat/completions") &&
      req.method = "POST" then
    let r := handleChatRequest epochMillis parse port requestId startedAt
      endedAt req.url req.chunks config.maxBodyBytes
    (r.1, [.corsSet, .tokenChecked, .routedChat] ++ r.2)
  else if req.url = "/v1/models" && req.method = "GET" then
    let r := handleModelsRequest port
    (r.1, [.corsSet, .tokenChecked, .routedModels] ++ r.2)
  else
    (⟨404, .errJson "Not Found"
        (some ("Unknown endpoint: " ++ req.method ++ " " ++ req.url))⟩,
      [.corsSet, .tokenChecked])

/-- The `ModelUnavailableError` message of `selectAndCacheModel`. -/
def noModelsMsg : String :=
  "No Copilot models available. " ++
    "Ensure GitHub Copilot is installed and authenticated."

/-- A message in the VS Code LM wire format. -/
inductive VMsg where
  | user (content : String)
  | assistant (content : String)
deriving DecidableEq, Repr

/-- Provider interactions of the VS Code adapter. -/
inductive ProvEv where
  | selectModels
  | chatRequest
deriving DecidableEq, Repr

/-- Loop of `VSCodeLanguageModelAdapter.prepareMessages`: system messages
are skipped; the first user message, when a system message exists and none
has been merged yet, gets the system content prepended inside the
`[System Instructions]` wrapper; user and assistant messages map to their
wire forms; other roles are dropped. -/
def prepareAux (sysContent : Option String) :
    List ChatMsg → Bool → List VMsg
  | [], _ => []
  | msg :: rest, started =>
    if msg.role = "system" then prepareAux sysContent rest started
    else if msg.role = "user" then
      match sysContent, started with
      | some sc, false =>
        VMsg.user ("[System Instructions]\n" ++ sc ++
          "\n\n[User Message]\n" ++ msg.content) ::
          prepareAux sysContent rest true
      | _, _ => VMsg.user msg.content :: prepareAux sysContent rest started
    else if msg.role = "assistant" then
      VMsg.assistant msg.content :: prepareAux sysContent rest started
    else prepareAux sysContent rest started

/-- `VSCodeLanguageModelAdapter.prepareMessages`: finds the first system
message, then runs the conversion loop. -/
def prepareMessages (messages : List ChatMsg) : List VMsg :=
  let sysContent :=
    (messages.find? (fun m => m.role = "system")).map (fun m => m.content)
  prepareAux sysContent messages false

/-- `VSCodeLanguageModelAdapter.sendRequest`.  The provider is modelled by
`selectByFamily` / `selectAll` (the two `vscode.lm.selectChatModels`
queries) and `chatCall` (the model's own `sendRequest`, buffered to its
full text); `cached` is the adapter's `cachedModel` state.  With a cold
cache the adapter first selects and caches a model (`ModelUnavailableError`
when none exists); in either case it then converts the domain messages,
throws `Error` "No valid messages after processing" when the conversion
yields nothing, and otherwise issues the chat request.  The second
component lists the provider interactions that happened. -/
def adapterSendRequest (selectByFamily : String → List ModelInfo)
    (selectAll : List ModelInfo) (chatCall : List VMsg → String)
    (defaultFamily : String) (cached : Option ModelInfo)
    (messages : List ChatMsg) (modelFamily : Option String) :
    Except DomainErr String × List ProvEv :=
  let family := match modelFamily with
    | some f => if f = "" then defaultFamily else f
    | none => defaultFamily
  match cached with
  | some _ =>
    let vscodeMessages := prepareMessages messages
    if vscodeMessages.length = 0 then
      (.error (.generic "No valid messages after processing"), [])
    else
      (.ok (chatCall vscodeMessages), [.chatRequest])
  | none =>
    let selected :=
      if family ≠ "" && family ≠ "auto" then
        let ms := selectByFamily family
        if ms.length = 0 then selectAll else ms
      else selectAll
    if selected.length = 0 then
      (.error (.modelUnavailable noModelsMsg), [.selectModels])
    else
      let vscodeMessages := prepareMessages messages
      if vscodeMessages.length = 0 then
        (.error (.generic "No valid messages after processing"),
          [.selectModels])
      else
        (.ok (chatCall vscodeMessages), [.selectModels, .chatRequest])

theorem bearer_string_ne_empty (token : String) : ("Bearer " ++ token) ≠ "" := by
  intro h
  have hd : ("Bearer " ++ token).data = "".data := congrArg String.data h
  simp [String.data, String.instAppend, String.append] at hd

theorem getLast?_append_or {α : Type} (l1 l2 : List α) :
    (l1 ++ l2).getLast? = l2.getLast?.or l1.getLast? := by
  cases l2 with
  | nil => simp
  | cons b bs =>
    rw [List.getLast?_append_of_ne_nil l1 (by simp)]
    simp [List.getLast?_cons]

theorem option_map_or {α β : Type} (o1 o2 : Option α) (f : α → β) :
    (o1.or o2).map f = (o1.map f).or (o2.map f) := by
  cases o1 <;> simp

/-- C1.  The claim states that `isLocalhost` accepts exactly the four
canonical loopback forms with an optional trailing `:<digits>` port
suffix, and in particular that `isLocalhost ('::1')` is true — which is
also what the repository's own unit test
(`tests/unit/adapters/input/http-server/validation.test.ts`, "should
accept ::1") asserts.  The code disagrees: the regex `:\d+$` in
`validation.ts` matches the suffix `:1` of `::1` itself, leaving `:`,
which is not a loopback form, so the function returns false for the plain
IPv6 loopback address.  `specIsLocalhost` renders the claim's contract and
confirms the divergence at this input. -/
theorem isLocalhost_rejects_plain_ipv6_loopback :
    isLocalhost (some "::1") = false ∧
    specIsLocalhost (some "::1") = true ∧
    stripPortSuffix "::1" = ":" ∧
    isLocalhost (some "::1:8080") = true ∧
    isLocalhost (some "127.0.0.1:54321") = true := by
  decide

/-- C2.  The claim states that a payload with `messages` absent fails with
`ValidationError` "messages array is required".  In the code the logging
line of `ProcessChatRequest.execute` reads `request.messages.length`
before `validateRequest` runs, so an absent `messages` raises a
`TypeError` instead, which the chat handler's catch block maps to a 500 —
while the repository's own integration test expects the 400 validation
response.  A present non-array `messages` and the empty array do produce
the claimed `ValidationError`s. -/
theorem processChatRequest_absent_messages_typeError :
    ∀ (port : PortModel) (requestId startedAt endedAt : String),
      ProcessChatRequest.execute port requestId startedAt endedAt
        ⟨.absent, none⟩ = .error (.generic typeErrorLengthMsg) ∧
      (∀ m, DomainErr.generic typeErrorLengthMsg ≠ .validation m) ∧
      chatCatch (.generic typeErrorLengthMsg) =
        ⟨500, .errJson "Internal Server Error" (some typeErrorLengthMsg)⟩ ∧
      ProcessChatRequest.execute port requestId startedAt endedAt
        ⟨.nonArray, none⟩ =
        .error (.validation "messages array is required") ∧
      ProcessChatRequest.execute port requestId startedAt endedAt
        ⟨.arr [], none⟩ =
        .error (.validation "messages array must not be empty") := by
  intro port requestId startedAt endedAt
  refine ⟨rfl, fun m => by simp, by decide, rfl, rfl⟩

/-- C4 counterexample.  The claim states that the fixed fields of a model
DTO take precedence over splatted additional properties.  In
`ListModels.execute` the spread `...model.additionalProperties` comes
after the fixed fields in the object literal, so a clashing additional
property wins: for a model with id `real-id` and an additional property
`id = spoofed`, the DTO's `id` is `spoofed`. -/
theorem listModels_additionalProperty_overwrites_id :
    (ListModels.execute
        [⟨"real-id", "v", "f", "n", 100, none, [("id", .str "spoofed")]⟩]).models =
      [buildModelDTO
        ⟨"real-id", "v", "f", "n", 100, none, [("id", .str "spoofed")]⟩] ∧
    jsGet (buildModelDTO
        ⟨"real-id", "v", "f", "n", 100, none, [("id", .str "spoofed")]⟩)
      "id" = some (.str "spoofed") ∧
    some (JVal.str "spoofed") ≠ some (JVal.str "real-id") := by
  decide

/-- C4 amended.  `ListModels.execute` maps every model of the port to its
DTO literal and returns the count; in that literal the additional
properties are spread after the fixed fields, so for every key the DTO
yields the last clashing additional property when one exists and the
fixed entry otherwise — additional properties take precedence over the
fixed fields, the reverse of the claimed precedence. -/
theorem listModels_spread_precedence :
    ∀ (models : List ModelInfo) (m : ModelInfo) (k : String),
      (ListModels.execute models).models = models.map buildModelDTO ∧
      (ListModels.execute models).count = models.length ∧
      jsGet (buildModelDTO m) k =
        (jsGet m.additionalProperties k).or (jsGet (fixedEntries m) k) := by
  intro models m k
  refine ⟨rfl, by simp [ListModels.execute], ?_⟩
  unfold buildModelDTO jsGet
  rw [List.filter_append, getLast?_append_or, option_map_or]

/-- C5.  `readBodyWithLimit` resolves with the concatenation of all
received chunks whenever their total byte size stays within the limit (in
particular the empty stream resolves to the empty string), and as soon as
the running total exceeds the limit on some chunk it fails with exactly
the message "Request body exceeds maximum size of N bytes" — the result
is the same for every continuation of the stream (no waiting for stream
end), and the loop state at the moment of failure holds only the chunks
before the crossing chunk (the crossing chunk is never buffered). -/
theorem readBodyWithLimit_spec :
    ∀ (chunks : List String) (maxBytes : Nat),
      (totalSize chunks ≤ maxBytes →
        readBodyWithLimit chunks maxBytes = .ok (joinChunks chunks)) ∧
      (readBodyWithLimit [] maxBytes = .ok "") ∧
      (∀ pfx c rest, chunks = pfx ++ c :: rest →
        totalSize pfx ≤ maxBytes →
        totalSize pfx + c.utf8ByteSize > maxBytes →
        readBodyWithLimit chunks maxBytes = .error (limitMsg maxBytes) ∧
        readBodyAux maxBytes chunks 0 "" =
          .error (limitMsg maxBytes, joinChunks pfx)) := by
  intro chunks maxBytes
  refine ⟨?_, rfl, ?_⟩
  · intro h
    unfold readBodyWithLimit joinChunks
    rw [readBodyAux_ok maxBytes chunks 0 "" (by omega)]
  · intro pfx c rest hc hle hover
    have haux : readBodyAux maxBytes chunks 0 "" =
        .error (limitMsg maxBytes, joinChunks pfx) := by
      rw [hc]
      exact readBodyAux_over maxBytes pfx c rest 0 "" (by omega) (by omega)
    refine ⟨?_, haux⟩
    unfold readBodyWithLimit
    rw [haux]

/-- C5 witness: a two-chunk stream of 4 bytes under limit 4 resolves to
the full text, and under limit 3 fails with the exact limit message while
having buffered only the first chunk. -/
theorem readBodyWithLimit_spec_witness :
    readBodyWithLimit ["ab", "cd"] 4 = .ok "abcd" ∧
    readBodyWithLimit [] 7 = .ok "" ∧
    readBodyWithLimit ["ab", "cd"] 3 = .error (limitMsg 3) ∧
    readBodyAux 3 ["ab", "cd"] 0 "" = .error (limitMsg 3, "ab") := by
  have h4 := readBodyWithLimit_spec ["ab", "cd"] 4
  have h3 := readBodyWithLimit_spec ["ab", "cd"] 3
  have h7 := readBodyWithLimit_spec [] 7
  refine ⟨?_, h7.2.1, ?_, ?_⟩
  · have := h4.1 (by decide)
    simpa [joinChunks] using this
  · exact (h3.2.2 ["ab"] "cd" [] rfl (by decide) (by decide)).1
  · have := (h3.2.2 ["ab"] "cd" [] rfl (by decide) (by decide)).2
    simpa [joinChunks] using this

/-- C3 counterexample.  The claim states that a chat request whose
processing throws an `InvalidMessageError` (here: role `robot`) is
answered with 400.  `InvalidMessageError` is a sibling, not a subclass, of
`ValidationError`, so the handler's `instanceof ValidationError` test
fails and the request falls through to the 500 branch: at this concrete
input the handler answers 500, not 400. -/
theorem chatHandler_invalidMessage_concrete_500 :
    (handleChatRequest (fun _ => 0)
        (fun _ => some ⟨.arr [⟨"robot", .str "x"⟩], none⟩)
        ⟨fun _ _ => .ok "out", none, .ok []⟩ "rid" "s" "e" "/v1/chat"
        ["body"] 1000).1 =
      ⟨500, .errJson "Internal Server Error"
        (some (invalidRoleMsg "robot"))⟩ ∧
    (handleChatRequest (fun _ => 0)
        (fun _ => some ⟨.arr [⟨"robot", .str "x"⟩], none⟩)
        ⟨fun _ _ => .ok "out", none, .ok []⟩ "rid" "s" "e" "/v1/chat"
        ["body"] 1000).1.status ≠ 400 := by
  decide

/-- C3 amended.  A chat request whose processing throws an
`InvalidMessageError` is answered with status 500 and that error's message
as details (not 400): the catch block maps only `ValidationError` and
errors whose message contains "exceeds maximum size" to 400, and an
`InvalidMessageError` is neither, provided its message (which embeds the
offending role) does not contain that substring. -/
theorem chatHandler_invalidMessage_maps_to_500
    (epochMillis : String → Int) (parse : String → Option ChatRequestDTO)
    (port : PortModel) (requestId startedAt endedAt url body : String)
    (chunks : List String) (maxBodyBytes : Nat) (dto : ChatRequestDTO)
    (msg : String)
    (hbody : readBodyWithLimit chunks maxBodyBytes = .ok body)
    (hparse : parse body = some dto)
    (hexec : ProcessChatRequest.execute port requestId startedAt endedAt dto =
      .error (.invalidMessage msg))
    (hmsg : jsIncludes msg "exceeds maximum size" = false) :
    handleChatRequest epochMillis parse port requestId startedAt endedAt
      url chunks maxBodyBytes =
      (⟨500, .errJson "Internal Server Error" (some msg)⟩,
        [.bodyRead, .useCaseInvoked]) := by
  unfold handleChatRequest
  rw [hbody]
  simp only [hparse, hexec]
  simp [chatCatch, DomainErr.message, hmsg]

/-- C3 witness: the amended mapping at the concrete bad-role request. -/
theorem chatHandler_invalidMessage_maps_to_500_witness :
    handleChatRequest (fun _ => 0)
      (fun _ => some ⟨.arr [⟨"robot", .str "x"⟩], none⟩)
      ⟨fun _ _ => .ok "out", none, .ok []⟩ "rid" "s" "e" "/v1/chat"
      ["body"] 1000 =
      (⟨500, .errJson "Internal Server Error"
        (some (invalidRoleMsg "robot"))⟩, [.bodyRead, .useCaseInvoked]) :=
  chatHandler_invalidMessage_maps_to_500 (fun _ => 0)
    (fun _ => some ⟨.arr [⟨"robot", .str "x"⟩], none⟩)
    ⟨fun _ _ => .ok "out", none, .ok []⟩ "rid" "s" "e" "/v1/chat" "body"
    ["body"] 1000 ⟨.arr [⟨"robot", .str "x"⟩], none⟩
    (invalidRoleMsg "robot") (by decide) rfl (by decide) (by decide)

/-- C6.  `ChatMessage` construction checks the role first: any invalid
role fails with the role error whatever the content is (so the role error
takes precedence when both are invalid); with a valid role, non-string
content fails with "Message content must be a string", string content
that trims to empty fails with the distinct "Message content cannot be
empty", and a valid role with non-blank string content succeeds with both
fields stored unchanged. -/
theorem chatMessage_construction_spec :
    ∀ (role : String) (content : ContentVal),
      (validRoles.contains role = false →
        mkChatMessage role content =
          .error (.invalidMessage (invalidRoleMsg role))) ∧
      (validRoles.contains role = true →
        mkChatMessage role .nonString =
          .error (.invalidMessage "Message content must be a string")) ∧
      (∀ s, validRoles.contains role = true → jsTrim s = "" →
        mkChatMessage role (.str s) =
          .error (.invalidMessage "Message content cannot be empty")) ∧
      (∀ s, validRoles.contains role = true → jsTrim s ≠ "" →
        mkChatMessage role (.str s) = .ok ⟨role, s⟩) ∧
      ("Message content must be a string" ≠
        "Message content cannot be empty") := by
  intro role content
  refine ⟨?_, ?_, ?_, ?_, by decide⟩
  · intro h; unfold mkChatMessage; rw [h]; rfl
  · intro h; unfold mkChatMessage; rw [h]; rfl
  · intro s h ht; unfold mkChatMessage; rw [h]; simp [ht]
  · intro s h ht; unfold mkChatMessage; rw [h]; simp [ht]

/-- C6 witness: the four cases at concrete inputs (invalid role with
invalid content yields the role error; non-string content; blank content;
a valid message). -/
theorem chatMessage_construction_spec_witness :
    mkChatMessage "robot" .nonString =
      .error (.invalidMessage (invalidRoleMsg "robot")) ∧
    mkChatMessage "user" .nonString =
      .error (.invalidMessage "Message content must be a string") ∧
    mkChatMessage "user" (.str "   ") =
      .error (.invalidMessage "Message content cannot be empty") ∧
    mkChatMessage "assistant" (.str "Hello") = .ok ⟨"assistant", "Hello"⟩ :=
  ⟨(chatMessage_construction_spec "robot" .nonString).1 (by decide),
   (chatMessage_construction_spec "user" .nonString).2.1 (by decide),
   (chatMessage_construction_spec "user" (.str "   ")).2.2.1 "   "
     (by decide) (by decide),
   (chatMessage_construction_spec "assistant" (.str "Hello")).2.2.2.1
     "Hello" (by decide) (by decide)⟩

/-- C7.  `validateBearerToken` is true exactly when no token is configured
(empty string) or the `authorization` header is present and equals the
literal `Bearer ` followed by the configured token — string equality, so
case-sensitive with no trailing content; a missing header, another scheme
or a mismatched token yields false. -/
theorem validateBearerToken_spec :
    ∀ (authorization : Option String) (token : String),
      validateBearerToken authorization token = true ↔
        (token = "" ∨ authorization = some ("Bearer " ++ token)) := by
  intro authorization token
  unfold validateBearerToken
  by_cases ht : token = ""
  · simp [ht]
  · rw [if_neg ht]
    cases authorization with
    | none => simp [ht]
    | some h =>
      by_cases hh : h = ""
      · subst hh
        simp [ht]
        exact fun hc => bearer_string_ne_empty token hc.symm
      · simp [hh, ht]

/-- C8.  When a non-OPTIONS request arrives from a peer address that
fails `isLocalhost`, the dispatcher answers 403 with the exact Forbidden
body and terminates with only the CORS step performed: the bearer token is
never checked, the body is never read, and no route handler or use case
runs for that request. -/
theorem dispatcher_forbidden_before_body_and_auth
    (epochMillis : String → Int) (parse : String → Option ChatRequestDTO)
    (port : PortModel) (requestId startedAt endedAt : String)
    (config : BridgeConfig) (req : ReqModel)
    (hmethod : req.method ≠ "OPTIONS")
    (haddr : isLocalhost req.remoteAddress = false) :
    handleRequest epochMillis parse port requestId startedAt endedAt
        config req =
      (⟨403, .errJson "Forbidden" (some "Only localhost requests are allowed")⟩,
        [.corsSet]) ∧
    Ev.tokenChecked ∉ (handleRequest epochMillis parse port requestId
      startedAt endedAt config req).2 ∧
    Ev.bodyRead ∉ (handleRequest epochMillis parse port requestId
      startedAt endedAt config req).2 ∧
    Ev.routedChat ∉ (handleRequest epochMillis parse port requestId
      startedAt endedAt config req).2 ∧
    Ev.routedModels ∉ (handleRequest epochMillis parse port requestId
      startedAt endedAt config req).2 ∧
    Ev.useCaseInvoked ∉ (handleRequest epochMillis parse port requestId
      startedAt endedAt config req).2 := by
  have h : handleRequest epochMillis parse port requestId startedAt endedAt
      config req =
      (⟨403, .errJson "Forbidden" (some "Only localhost requests are allowed")⟩,
        [.corsSet]) := by
    unfold handleRequest
    rw [if_neg hmethod, if_pos haddr]
  refine ⟨h, ?_, ?_, ?_, ?_, ?_⟩ <;> rw [h] <;> decide

/-- C8 witness: a POST to the chat route from 10.0.0.1 is answered 403
with nothing but the CORS step performed. -/
theorem dispatcher_forbidden_witness :
    handleRequest (fun _ => 0) (fun _ => none)
        ⟨fun _ _ => .ok "out", none, .ok []⟩ "rid" "s" "e"
        ⟨32123, "127.0.0.1", "", "gpt-4o", 1000⟩
        ⟨"POST", "/v1/chat", some "10.0.0.1", none, ["x"]⟩ =
      (⟨403, .errJson "Forbidden" (some "Only localhost requests are allowed")⟩,
        [.corsSet]) :=
  (dispatcher_forbidden_before_body_and_auth (fun _ => 0) (fun _ => none)
    ⟨fun _ _ => .ok "out", none, .ok []⟩ "rid" "s" "e"
    ⟨32123, "127.0.0.1", "", "gpt-4o", 1000⟩
    ⟨"POST", "/v1/chat", some "10.0.0.1", none, ["x"]⟩
    (by decide) (by decide)).1

/-- C9.  A successful chat request on the `/v1/chat/completions` route is
answered 200 with the reshaped OpenAI-style body — id from the envelope,
object "chat.completion", created the startedAt clock value floored to
epoch seconds, model the family, a single index-0 assistant choice
holding the output text with finish reason "stop", and all-zero usage —
rather than the native envelope. -/
theorem chatHandler_openai_reshape
    (epochMillis : String → Int) (parse : String → Option ChatRequestDTO)
    (port : PortModel) (requestId startedAt endedAt body : String)
    (chunks : List String) (maxBodyBytes : Nat) (dto : ChatRequestDTO)
    (resp : ChatResponseDTO)
    (hbody : readBodyWithLimit chunks maxBodyBytes = .ok body)
    (hparse : parse body = some dto)
    (hexec : ProcessChatRequest.execute port requestId startedAt endedAt dto =
      .ok resp) :
    handleChatRequest epochMillis parse port requestId startedAt endedAt
        "/v1/chat/completions" chunks maxBodyBytes =
      (⟨200, .openaiJson resp.id "chat.completion"
          ((epochMillis resp.meta.startedAt).fdiv 1000)
          resp.model.family "assistant" resp.output_text "stop" 0 0 0⟩,
        [.bodyRead, .useCaseInvoked]) := by
  unfold handleChatRequest
  rw [hbody]
  simp only [hparse, hexec]
  simp [toOpenAI]

/-- C9 witness: a concrete successful request through the compatibility
route, with the millisecond clock value 1730000000500 flooring to
1730000000 epoch seconds. -/
theorem chatHandler_openai_reshape_witness :
    handleChatRequest (fun _ => 1730000000500)
        (fun _ => some ⟨.arr [⟨"user", .str "Hi"⟩], none⟩)
        ⟨fun _ _ => .ok "Hello!",
         some ⟨"m1", "copilot", "gpt-4o", "GPT-4o", 128000, none, []⟩, .ok []⟩
        "req-1" "s" "e" "/v1/chat/completions" ["x"] 100 =
      (⟨200, .openaiJson "req-1" "chat.completion" 1730000000 "gpt-4o"
          "assistant" "Hello!" "stop" 0 0 0⟩,
        [.bodyRead, .useCaseInvoked]) :=
  chatHandler_openai_reshape (fun _ => 1730000000500)
    (fun _ => some ⟨.arr [⟨"user", .str "Hi"⟩], none⟩)
    ⟨fun _ _ => .ok "Hello!",
     some ⟨"m1", "copilot", "gpt-4o", "GPT-4o", 128000, none, []⟩, .ok []⟩
    "req-1" "s" "e" "x" ["x"] 100 ⟨.arr [⟨"user", .str "Hi"⟩], none⟩
    ⟨"req-1", ⟨"copilot", "gpt-4o"⟩, "Hello!", ⟨"s", "e"⟩⟩
    (by decide) rfl (by decide)

theorem prepareAux_all_system :
    ∀ (l : List ChatMsg) (sysContent : Option String) (started : Bool),
      (∀ m ∈ l, m.role = "system") → prepareAux sysContent l started = [] := by
  intro l
  induction l with
  | nil => intro _ _ _; rfl
  | cons m rest ih =>
    intro sysContent started hall
    have hm : m.role = "system" := hall m (by simp)
    unfold prepareAux
    rw [if_pos hm]
    exact ih sysContent started (fun x hx => hall x (by simp [hx]))

theorem adapterSendRequest_warm_empty
    (selectByFamily : String → List ModelInfo) (selectAll : List ModelInfo)
    (chatCall : List VMsg → String) (defaultFamily : String)
    (mi : ModelInfo) (messages : List ChatMsg) (modelFamily : Option String)
    (hprep : prepareMessages messages = []) :
    adapterSendRequest selectByFamily selectAll chatCall defaultFamily
      (some mi) messages modelFamily =
      (.error (.generic "No valid messages after processing"), []) := by
  simp [adapterSendRequest, hprep]

/-- C10.  For valid but all-system message lists, `prepareMessages` drops
every message (the system content is only ever prepended to a first user
message, which does not exist), so the adapter's `sendRequest` fails with
the plain `Error` "No valid messages after processing": with a warm model
cache it performs no provider interaction at all, and with any cache state
the chat request to the language model is never issued.  Routed through
`ProcessChatRequest` (whose request-level and per-message validation such
a request passes) the failure surfaces as this generic error, which the
chat handler's catch block maps to a 500. -/
theorem adapter_all_system_messages_error
    (messages : List ChatMsg) (hne : messages ≠ [])
    (hall : ∀ m ∈ messages, m.role = "system") :
    prepareMessages messages = [] ∧
    (∀ (selectByFamily : String → List ModelInfo)
       (selectAll : List ModelInfo) (chatCall : List VMsg → String)
       (defaultFamily : String) (mi : ModelInfo)
       (modelFamily : Option String),
      adapterSendRequest selectByFamily selectAll chatCall defaultFamily
        (some mi) messages modelFamily =
        (.error (.generic "No valid messages after processing"), [])) ∧
    (∀ (selectByFamily : String → List ModelInfo)
       (selectAll : List ModelInfo) (chatCall : List VMsg → String)
       (defaultFamily : String) (cached : Option ModelInfo)
       (modelFamily : Option String),
      ProvEv.chatRequest ∉
        (adapterSendRequest selectByFamily selectAll chatCall defaultFamily
          cached messages modelFamily).2) ∧
    (∀ (selectByFamily : String → List ModelInfo)
       (selectAll : List ModelInfo) (chatCall : List VMsg → String)
       (defaultFamily : String) (mi : ModelInfo)
       (requestId startedAt endedAt : String) (dtoMsgs : List MessageDTO),
      dtoMsgs.mapM (fun m => mkChatMessage m.role m.content) =
        .ok messages →
      ProcessChatRequest.execute
        ⟨fun ms fam => (adapterSendRequest selectByFamily selectAll chatCall
            defaultFamily (some mi) ms fam).1, some mi, .ok []⟩
        requestId startedAt endedAt ⟨.arr dtoMsgs, none⟩ =
        .error (.generic "No valid messages after processing")) ∧
    chatCatch (.generic "No valid messages after processing") =
      ⟨500, .errJson "Internal Server Error"
        (some "No valid messages after processing")⟩ := by
  have hprep : prepareMessages messages = [] := by
    unfold prepareMessages
    exact prepareAux_all_system messages _ false hall
  refine ⟨hprep, ?_, ?_, ?_, by decide⟩
  · intro sbf sa cc df mi fam
    exact adapterSendRequest_warm_empty sbf sa cc df mi messages fam hprep
  · intro sbf sa cc df cached fam
    cases cached with
    | some mi =>
      rw [adapterSendRequest_warm_empty sbf sa cc df mi messages fam hprep]
      decide
    | none =>
      simp only [adapterSendRequest, hprep]
      split_ifs <;> simp_all
  · intro sbf sa cc df mi rid s e dtoMsgs hmap
    have hne2 : dtoMsgs ≠ [] := by
      intro h
      subst h
      have h0 : ([] : List MessageDTO).mapM
          (fun m => mkChatMessage m.role m.content) =
          (.ok [] : Except DomainErr (List ChatMsg)) := rfl
      rw [h0] at hmap
      injection hmap with h1
      exact hne h1.symm
    have hlen : ¬ dtoMsgs.length = 0 := by
      simpa [List.length_eq_zero] using hne2
    have hwarm := adapterSendRequest_warm_empty sbf sa cc df mi messages none
      hprep
    unfold ProcessChatRequest.execute validateRequest
    simp only [hmap]
    rw [if_neg hlen]
    simp only [hwarm]

/-- C10 witness: the single system message "a" with a warm cache yields
the exact error without provider interaction, and the same request
through `ProcessChatRequest.execute` fails with the generic error that
the handler maps to 500. -/
theorem adapter_all_system_messages_error_witness :
    adapterSendRequest (fun _ => []) [] (fun _ => "reply") "gpt-4o"
      (some ⟨"m1", "copilot", "gpt-4o", "GPT-4o", 128000, none, []⟩)
      [⟨"system", "a"⟩] none =
      (.error (.generic "No valid messages after processing"), []) ∧
    ProcessChatRequest.execute
      ⟨fun ms fam => (adapterSendRequest (fun _ => []) [] (fun _ => "reply")
          "gpt-4o" (some ⟨"m1", "copilot", "gpt-4o", "GPT-4o", 128000,
            none, []⟩) ms fam).1,
       some ⟨"m1", "copilot", "gpt-4o", "GPT-4o", 128000, none, []⟩, .ok []⟩
      "rid" "s" "e" ⟨.arr [⟨"system", .str "a"⟩], none⟩ =
      .error (.generic "No valid messages after processing") :=
  have h := adapter_all_system_messages_error [⟨"system", "a"⟩]
    (by decide) (by decide)
  ⟨h.2.1 (fun _ => []) [] (fun _ => "reply") "gpt-4o"
      ⟨"m1", "copilot", "gpt-4o", "GPT-4o", 128000, none, []⟩ none,
   h.2.2.2.1 (fun _ => []) [] (fun _ => "reply") "gpt-4o"
      ⟨"m1", "copilot", "gpt-4o", "GPT-4o", 128000, none, []⟩
      "rid" "s" "e" [⟨"system", .str "a"⟩] (by decide)⟩
